import Mathlib

/-!
Shallow embedding of the model-call core of `app.py` (Flask relay):
the response normalizer `extract_text_from_model_response`, the history
trimmer `trim_messages`, the robust model caller `call_model`, and the
message-history slice of the `api_chat` route handler.

Modelling conventions:
* Python JSON-like values are the inductive `Json`; JSON numbers are
  modelled as integers (no claim involves fractional numbers).
* Python exceptions inside the normalizer are modelled with `Except Unit`:
  `.error ()` marks the point where the Python code raises.
* Python `str(x)` is `pyStr`, with `repr` of strings modelled as plain
  single-quote wrapping (escape sequences inside string contents are not
  modelled; no claim depends on them).
* Message contents are modelled as strings, matching the values this
  application actually stores and sends.
* HTTP is modelled by an oracle `net : Nat → NetResult` giving the
  response to the k-th POST request issued by a run of `call_model`;
  the run also returns the trace of attempted POSTs and sleeps.
* Sleep durations are recorded in tenths of a second (`0.6 s` is `6`).
-/

inductive Json where
  | null : Json
  | bool : Bool → Json
  | num : Int → Json
  | str : String → Json
  | arr : List Json → Json
  | obj : List (String × Json) → Json

/-- Python dict lookup on the association list backing a `Json.obj`. -/
def alookup (k : String) : List (String × Json) → Option Json
  | [] => none
  | (k', v) :: rest => if k' = k then some v else alookup k rest

/-- Whether a `Json` value is a Python dict. -/
def Json.isObj : Json → Bool
  | .obj _ => true
  | _ => false

/-- Whether a `Json` value is a Python str. -/
def Json.isStr : Json → Bool
  | .str _ => true
  | _ => false

mutual

/-- Python `repr` of a JSON-like value (string escaping not modelled). -/
def pyRepr : Json → String
  | .null => "None"
  | .bool true => "True"
  | .bool false => "False"
  | .num n => toString n
  | .str s => "\x27" ++ s ++ "\x27"
  | .arr xs => "[" ++ pyReprArr xs ++ "]"
  | .obj kvs => "\x7b" ++ pyReprObj kvs ++ "\x7d"

/-- Comma-joined `repr` of list elements. -/
def pyReprArr : List Json → String
  | [] => ""
  | [x] => pyRepr x
  | x :: y :: rest => pyRepr x ++ ", " ++ pyReprArr (y :: rest)

/-- Comma-joined `repr` of dict entries. -/
def pyReprObj : List (String × Json) → String
  | [] => ""
  | [(k, v)] => "\x27" ++ k ++ "\x27: " ++ pyRepr v
  | (k, v) :: e :: rest => "\x27" ++ k ++ "\x27: " ++ pyRepr v ++ ", " ++ pyReprObj (e :: rest)

end

/-- Python `str` of a JSON-like value: the string itself for a str,
`repr`-style rendering otherwise. -/
def pyStr : Json → String
  | .str s => s
  | j => pyRepr j

/-- Python `"k" in xs` for a list value: true iff some element is the
string `k` (comparison of a str against each element). -/
def jsonListHasStr (k : String) : List Json → Bool
  | [] => false
  | .str s :: rest => if s = k then true else jsonListHasStr k rest
  | _ :: rest => jsonListHasStr k rest

/-- Python `"k" in s` for strings: substring containment. -/
def pyInStr (k s : String) : Bool :=
  decide (List.IsInfix k.data s.data)

/-- Inner checks on `choices[0]` after the `message` branch did not return:
the string `text` field, then the `delta.content` branch
(`app.py` lines 70-74). -/
def checkChoiceRest (ckvs : List (String × Json)) : Except Unit (Option Json) :=
  match alookup "text" ckvs with
  | some (.str s) => .ok (some (.str s))
  | _ =>
    match alookup "delta" ckvs with
    | some (.obj dkvs) =>
      match alookup "content" dkvs with
      | some v => .ok (some v)
      | none => .ok none
    | _ => .ok none

/-- The `choices`-style branch of the normalizer (`app.py` lines 64-74).
`choice.get("message")` on a non-dict `choices[0]` raises `AttributeError`,
modelled as `.error ()`. -/
def checkChoices (kvs : List (String × Json)) : Except Unit (Option Json) :=
  match alookup "choices" kvs with
  | some (.arr (choice :: _)) =>
    match choice with
    | .obj ckvs =>
      match alookup "message" ckvs with
      | some (.obj mkvs) =>
        match alookup "content" mkvs with
        | some v => .ok (some v)
        | none => checkChoiceRest ckvs
      | _ => checkChoiceRest ckvs
    | _ => .error ()
  | _ => .ok none

/-- First top-level key from `keys` whose value is a string
(`app.py` lines 77-79). -/
def firstStringKey (keys : List String) (kvs : List (String × Json)) : Option Json :=
  match keys with
  | [] => none
  | k :: rest =>
    match alookup k kvs with
    | some (.str s) => some (.str s)
    | _ => firstStringKey rest kvs

/-- One step of the `data[0]` loop: Python `k in d0 and isinstance(d0[k], str)`
followed by `return d0[k]`. On a non-dict `d0` the `in` test works for str
(substring) and list (membership) but indexing with a string key then raises
`TypeError`; `in` on other values raises at once (`app.py` lines 84-86). -/
def dataKeyStep (k : String) (d0 : Json) : Except Unit (Option Json) :=
  match d0 with
  | .obj kvs =>
    match alookup k kvs with
    | some (.str s) => .ok (some (.str s))
    | _ => .ok none
  | .str s => if pyInStr k s then .error () else .ok none
  | .arr xs => if jsonListHasStr k xs then .error () else .ok none
  | _ => .error ()

/-- The `data`-variant branch of the normalizer (`app.py` lines 82-86). -/
def checkData (kvs : List (String × Json)) : Except Unit (Option Json) := do
  match alookup "data" kvs with
  | some (.arr (d0 :: _)) =>
    match ← dataKeyStep "text" d0 with
    | some v => return some v
    | none => dataKeyStep "content" d0
  | _ => return none

/-- Body of the `try` block of `extract_text_from_model_response`
(`app.py` lines 61-89): `.ok (some v)` models `return v`, `.ok none`
models falling past every shape test, `.error ()` models a raised
exception reaching the bare `except`. -/
def extractCore (resp : Json) : Except Unit (Option Json) := do
  match resp with
  | .obj kvs =>
    match ← checkChoices kvs with
    | some v => return some v
    | none =>
      match firstStringKey ["text", "result", "output_text", "response"] kvs with
      | some v => return some v
      | none => checkData kvs
  | _ => return none

/-- The normalizer `extract_text_from_model_response` (`app.py` lines 57-92):
any exception is swallowed by the bare `except` and, like a total
non-match, falls to `str(resp_json)`. The Python function also returns
the raw input as a second tuple component; only the extracted value is
modelled. -/
def extract_text_from_model_response (resp : Json) : Json :=
  match extractCore resp with
  | .ok (some v) => v
  | .ok none => .str (pyStr resp)
  | .error _ => .str (pyStr resp)

/-- A message dict as handed to `trim_messages` and `call_model`:
the `role` and `content` keys may be absent (`dict.get` defaults apply). -/
structure PMsg where
  role : Option String
  content : Option String
deriving DecidableEq

/-- A fully-populated `{"role": ..., "content": ...}` dict as produced by
`trim_msg` and sent in the chat payload. -/
structure CMsg where
  role : String
  content : String
deriving DecidableEq

/-- View of a produced message dict back as an input dict (both keys present). -/
def CMsg.toP (m : CMsg) : PMsg :=
  { role := some m.role, content := some m.content }

/-- Keep at most this many messages in the payload (`app.py` line 98). -/
def MAX_MESSAGES : Nat := 24

/-- Approximate safe total characters for the messages payload
(`app.py` line 99). -/
def MAX_TOTAL_CHARS : Nat := 14000

/-- Trim any single message to this many characters (`app.py` line 100). -/
def MAX_MESSAGE_CHARS : Nat := 3000

/-- The inner `trim_msg` helper of `trim_messages` (`app.py` lines 113-118):
missing `content` defaults to `""`, missing `role` to `"user"`, and an
over-long content keeps only its trailing `MAX_MESSAGE_CHARS` characters. -/
def trim_msg (m : PMsg) : CMsg :=
  let content := m.content.getD ""
  let content :=
    if content.length > MAX_MESSAGE_CHARS then
      content.drop (content.length - MAX_MESSAGE_CHARS)
    else content
  { role := m.role.getD "user", content := content }

/-- Total character count of the retained messages (`app.py` lines 123, 127). -/
def totalChars (msgs : List CMsg) : Nat :=
  (msgs.map (fun m => m.content.length)).sum

/-- The `while total_chars > MAX_TOTAL_CHARS and len(msgs) > 1` loop of
`trim_messages` (`app.py` lines 124-127): drop the oldest message while the
total is over the cap and more than one message remains. -/
def trimLoop : List CMsg → List CMsg
  | [] => []
  | m :: ms =>
    if totalChars (m :: ms) > MAX_TOTAL_CHARS ∧ ms ≠ [] then trimLoop ms
    else m :: ms

/-- The trimmer `trim_messages` (`app.py` lines 102-129): keep the last
`MAX_MESSAGES` messages (`messages[-MAX_MESSAGES:]`), trim each one with
`trim_msg`, then drop oldest messages while the aggregate cap is exceeded. -/
def trim_messages (messages : List PMsg) : List CMsg :=
  if messages.isEmpty then []
  else
    trimLoop (((messages.drop (messages.length - MAX_MESSAGES)).map trim_msg))

/-- An HTTP response as seen through the `requests` API: status code, the
result of `r.json()` (`none` models a body on which JSON parsing raises),
and the raw body `r.text`. -/
structure HResp where
  status : Nat
  jsonBody : Option Json
  text : String

/-- Outcome of one `requests.post` call: a response, or a raised exception
(connection refused, timeout, ...) carrying its `str(e)` rendering. -/
inductive NetResult where
  | resp (r : HResp)
  | exn (msg : String)

/-- An outbound payload: the chat-completions shape built at `app.py`
lines 169-174, or the fallback `inputs` shape built at line 203. -/
inductive Payload where
  | chat (model : String) (messages : List CMsg) (max_tokens : Nat) (temperature : Rat)
  | inputsShape (inputs : String) (max_new_tokens : Nat) (temperature : Rat)
deriving DecidableEq

/-- Observable actions of a `call_model` run: an attempted HTTP POST, or a
`time.sleep`; sleep durations are in tenths of a second. -/
inductive Event where
  | post (url : String) (payload : Payload)
  | sleep (tenths : Nat)
deriving DecidableEq

/-- Handling of a 200 response (`app.py` lines 179-188): run the normalizer
on the parsed JSON body, or return the raw body text when parsing raises. -/
def parse200 (r : HResp) : Json :=
  match r.jsonBody with
  | some j => extract_text_from_model_response j
  | none => .str r.text

/-- The recoverable statuses of `app.py` line 197. -/
def RETRY_STATUSES : List Nat := [408, 409, 429, 500, 502, 503, 504]

/-- The inner `for attempt in range(3)` loop of `call_model` for one
candidate URL (`app.py` lines 166-228). Arguments: the two payload shapes
(identical on every attempt), the current attempt index, the remaining
attempts, the running `last_err`, the index of the next oracle response,
and the oracle. Returns the success value if any, the events of this URL's
attempts, the next oracle index, and the updated `last_err`. -/
def tryUrl (url : String) (p pi : Payload) (attempt attemptsLeft : Nat)
    (lastErr : Option String) (n : Nat) (net : Nat → NetResult) :
    Option Json × List Event × Nat × Option String :=
  match attemptsLeft with
  | 0 => (none, [], n, lastErr)
  | Nat.succ rest =>
    match net n with
    | .exn msg =>
      let out := tryUrl url p pi (attempt + 1) rest (some msg) (n + 1) net
      (out.1, Event.post url p :: Event.sleep (5 * (attempt + 1)) :: out.2.1, out.2.2)
    | .resp r =>
      if r.status = 200 then
        (some (parse200 r), [Event.post url p], n + 1, lastErr)
      else if r.status = 404 then
        (none, [Event.post url p], n + 1, some (url ++ " returned 404 Not Found"))
      else if r.status ∈ RETRY_STATUSES then
        let le := some (url ++ " returned " ++ toString r.status ++ ": " ++ r.text)
        let out := tryUrl url p pi (attempt + 1) rest le (n + 1) net
        (out.1, Event.post url p :: Event.sleep (6 * (attempt + 1)) :: out.2.1, out.2.2)
      else
        match net (n + 1) with
        | .exn msg =>
          let out := tryUrl url p pi (attempt + 1) rest (some msg) (n + 2) net
          (out.1, Event.post url p :: Event.post url pi :: Event.sleep (5 * (attempt + 1)) :: out.2.1, out.2.2)
        | .resp r2 =>
          if r2.status = 200 then
            (some (parse200 r2), [Event.post url p, Event.post url pi], n + 2, lastErr)
          else if r2.status = 404 then
            (none, [Event.post url p, Event.post url pi], n + 2, some (url ++ " (inputs) returned 404"))
          else
            let le := some (url ++ " returned " ++ toString r.status ++ ": " ++ r.text)
            let out := tryUrl url p pi (attempt + 1) rest le (n + 2) net
            (out.1, Event.post url p :: Event.post url pi :: out.2.1, out.2.2)

/-- The outer `for url in MODEL_URLS` loop of `call_model`
(`app.py` lines 164-228): each URL gets up to 3 attempts; a success value
ends the run at once, otherwise the run advances to the next URL. -/
def tryUrls (urls : List String) (p pi : Payload) (lastErr : Option String)
    (n : Nat) (net : Nat → NetResult) :
    Option Json × List Event × Nat × Option String :=
  match urls with
  | [] => (none, [], n, lastErr)
  | url :: rest =>
    let out := tryUrl url p pi 0 3 lastErr n net
    match out.1 with
    | some v => (some v, out.2.1, out.2.2.1, out.2.2.2)
    | none =>
      let out2 := tryUrls rest p pi out.2.2.2 out.2.2.1 net
      (out2.1, out.2.1 ++ out2.2.1, out2.2.2)

/-- Configured base host (`app.py` line 19, default value). -/
def MODEL_HOST : String := "http://127.0.0.1:5000"

/-- Candidate endpoint path suffixes (`app.py` lines 22-28). -/
def MODEL_ENDPOINTS : List String :=
  ["/v1/chat/completions", "/v1/completions", "/predict", "/v1/generate", "/v1/complete"]

/-- Candidate absolute URLs (`app.py` line 29); the default host has no
trailing slash, so `rstrip("/")` leaves it unchanged. -/
def MODEL_URLS : List String :=
  MODEL_ENDPOINTS.map (fun ep => MODEL_HOST ++ ep)

/-- The `safe_messages` preparation of `call_model` (`app.py` lines 151-160):
a provided non-empty list is normalized to role/content pairs and trimmed;
otherwise a single user message holding the prompt is synthesized. -/
def safe_messages_of (prompt : String) (messages : Option (List PMsg)) : List CMsg :=
  let safe0 : List CMsg :=
    match messages with
    | some ms =>
      if ms.isEmpty then []
      else trim_messages (ms.map (fun m => CMsg.toP ⟨m.role.getD "user", m.content.getD ""⟩))
    | none => []
  if safe0.isEmpty then [⟨"user", prompt⟩] else safe0

/-- Result of a `call_model` run: the returned `(ok, text)` pair (the text
as a JSON-like value, since the normalizer can hand back non-strings) plus
the trace of attempted POSTs and sleeps. -/
structure CallResult where
  ok : Bool
  value : Json
  events : List Event

/-- Python f-string rendering of the optional `last_err` diagnostic:
`None` renders as the string `"None"`. -/
def strOfOptErr : Option String → String
  | none => "None"
  | some s => s

/-- The robust model caller `call_model` (`app.py` lines 135-230). The
`stop` parameter is accepted and, as in the source, never read. The HTTP
world is the oracle `net`. -/
def call_model (prompt : String) (max_tokens : Nat) (stop : Option (List String))
    (temperature : Rat) (messages : Option (List PMsg)) (net : Nat → NetResult) :
    CallResult :=
  let safe_messages := safe_messages_of prompt messages
  let payload := Payload.chat "local-model" safe_messages max_tokens temperature
  let payload_inputs := Payload.inputsShape prompt max_tokens temperature
  let out := tryUrls MODEL_URLS payload payload_inputs none 0 net
  match out.1 with
  | some v => { ok := true, value := v, events := out.2.1 }
  | none =>
    { ok := false
      value := .str ("Failed to contact model. Last error: " ++ strOfOptErr out.2.2.2)
      events := out.2.1 }

/-- The `last_err` value at the end of a `call_model` run (the last
recorded diagnostic of the trace). -/
def call_model_last_err (prompt : String) (max_tokens : Nat)
    (temperature : Rat) (messages : Option (List PMsg)) (net : Nat → NetResult) :
    Option String :=
  let safe_messages := safe_messages_of prompt messages
  let payload := Payload.chat "local-model" safe_messages max_tokens temperature
  let payload_inputs := Payload.inputsShape prompt max_tokens temperature
  (tryUrls MODEL_URLS payload payload_inputs none 0 net).2.2.2

/-- A message as stored in a session's history (`app.py` lines 302, 313):
role, content, and the `time.time()` timestamp (modelled as a parameter). -/
structure StoredMsg where
  role : String
  content : String
  time : Nat
deriving DecidableEq

/-- Projection of a stored message to the `{"role": ..., "content": ...}`
dict built by `api_chat` at `app.py` line 305. -/
def projMsg (m : StoredMsg) : PMsg :=
  { role := some m.role, content := some m.content }

/-- The message-history slice of the `api_chat` route handler
(`app.py` lines 299-315): append the user message to the stored history,
build and trim the outbound projection, invoke `call_model` (default
`stop` and `temperature`, 0.2 written as 1/5), derive the assistant text
(error-marked on failure), append it, and return the new history, the
response text and the adapter's trace. The stored assistant content is the
textual form of the adapter's returned value (a string in all but the
degenerate normalizer shapes). -/
def api_chat_core (stored : List StoredMsg) (prompt : String) (max_tokens : Nat)
    (t1 t2 : Nat) (net : Nat → NetResult) : List StoredMsg × String × List Event :=
  let stored1 := stored ++ [⟨"user", prompt, t1⟩]
  let messages_for_model := trim_messages (stored1.map projMsg)
  let res := call_model prompt max_tokens none (1 / 5) (some (messages_for_model.map CMsg.toP)) net
  let assistant_text := if res.ok then pyStr res.value else "[Model error] " ++ pyStr res.value
  (stored1 ++ [⟨"assistant", assistant_text, t2⟩], assistant_text, res.events)

/-- Oracle answering every request with a 200 chat-shape response. -/
def netOk : Nat → NetResult :=
  fun _ => NetResult.resp ⟨200, some (Json.obj [("text", Json.str "ok")]), "raw"⟩

/-- Oracle answering every request with a 503 and an empty-diagnostic body. -/
def net503 : Nat → NetResult :=
  fun _ => NetResult.resp ⟨503, none, "busy"⟩

/-- Oracle raising a network exception on every request. -/
def netExnAll : Nat → NetResult :=
  fun _ => NetResult.exn "connection refused"

/-- Oracle giving a 400 to the first request and a 200 to all later ones,
driving the fallback inputs-shape path of `call_model`. -/
def netFallback : Nat → NetResult :=
  fun k =>
    if k = 0 then NetResult.resp ⟨400, none, "bad"⟩
    else NetResult.resp ⟨200, some (Json.obj []), "ok"⟩

/-- Predicate on an oracle answer: the request did not succeed (a network
exception, or any status other than 200). -/
def not200 : NetResult → Prop
  | .resp r => r.status ≠ 200
  | .exn _ => True

lemma string_length_drop (s : String) (n : Nat) : (s.drop n).length = s.length - n := by
  rw [String.drop_eq]
  show (s.data.drop n).length = s.data.length - n
  exact List.length_drop n s.data

lemma trim_msg_content_le (m : PMsg) :
    (trim_msg m).content.length ≤ MAX_MESSAGE_CHARS := by
  unfold trim_msg
  by_cases h : (m.content.getD "").length > MAX_MESSAGE_CHARS
  · simp only [h, if_true, string_length_drop]
    omega
  · simp only [h, if_false]
    omega

lemma trimLoop_ne_nil (l : List CMsg) (h : l ≠ []) : trimLoop l ≠ [] := by
  induction l with
  | nil => exact absurd rfl h
  | cons m ms ih =>
    unfold trimLoop
    by_cases hc : totalChars (m :: ms) > MAX_TOTAL_CHARS ∧ ms ≠ []
    · rw [if_pos hc]
      exact ih hc.2
    · rw [if_neg hc]
      exact List.cons_ne_nil m ms

lemma trimLoop_length_le (l : List CMsg) : (trimLoop l).length ≤ l.length := by
  induction l with
  | nil => simp [trimLoop]
  | cons m ms ih =>
    unfold trimLoop
    by_cases hc : totalChars (m :: ms) > MAX_TOTAL_CHARS ∧ ms ≠ []
    · rw [if_pos hc]
      exact le_trans ih (by simp)
    · rw [if_neg hc]

lemma trimLoop_subset (l : List CMsg) (a : CMsg) (h : a ∈ trimLoop l) : a ∈ l := by
  induction l with
  | nil => simp [trimLoop] at h
  | cons m ms ih =>
    unfold trimLoop at h
    by_cases hc : totalChars (m :: ms) > MAX_TOTAL_CHARS ∧ ms ≠ []
    · rw [if_pos hc] at h
      exact List.mem_cons_of_mem m (ih h)
    · rwa [if_neg hc] at h

lemma trimLoop_total_or_one (l : List CMsg) :
    totalChars (trimLoop l) ≤ MAX_TOTAL_CHARS ∨ (trimLoop l).length = 1 := by
  induction l with
  | nil => left; simp [trimLoop, totalChars]
  | cons m ms ih =>
    unfold trimLoop
    by_cases hc : totalChars (m :: ms) > MAX_TOTAL_CHARS ∧ ms ≠ []
    · rw [if_pos hc]
      exact ih
    · rw [if_neg hc]
      rcases not_and_or.mp hc with h | h
      · left; omega
      · right
        have : ms = [] := not_not.mp h
        simp [this]

lemma trimLoop_fix (l : List CMsg)
    (h : totalChars l ≤ MAX_TOTAL_CHARS ∨ l.length ≤ 1) : trimLoop l = l := by
  cases l with
  | nil => rfl
  | cons m ms =>
    unfold trimLoop
    rcases h with h | h
    · have : ¬(totalChars (m :: ms) > MAX_TOTAL_CHARS ∧ ms ≠ []) := by
        intro hc; omega
      simp only [this, if_false]
    · have hms : ms = [] := by
        cases ms with
        | nil => rfl
        | cons a as => simp at h
      have : ¬(totalChars (m :: ms) > MAX_TOTAL_CHARS ∧ ms ≠ []) := by
        intro hc; exact hc.2 hms
      rw [if_neg this]

lemma map_id_of_mem {α : Type} (l : List α) (f : α → α) (h : ∀ x ∈ l, f x = x) :
    l.map f = l := by
  induction l with
  | nil => rfl
  | cons a as ih =>
    simp only [List.map_cons, h a (List.mem_cons_self a as)]
    rw [ih (fun x hx => h x (List.mem_cons_of_mem a hx))]

lemma trim_messages_length_le (l : List PMsg) :
    (trim_messages l).length ≤ MAX_MESSAGES := by
  unfold trim_messages
  by_cases h : l.isEmpty
  · rw [if_pos h]
    simp [MAX_MESSAGES]
  · rw [if_neg h]
    have h1 := trimLoop_length_le ((l.drop (l.length - MAX_MESSAGES)).map trim_msg)
    have h2 : ((l.drop (l.length - MAX_MESSAGES)).map trim_msg).length
        = l.length - (l.length - MAX_MESSAGES) := by
      rw [List.length_map, List.length_drop]
    omega

lemma trim_messages_content_le (l : List PMsg) (m : CMsg) (h : m ∈ trim_messages l) :
    m.content.length ≤ MAX_MESSAGE_CHARS := by
  unfold trim_messages at h
  by_cases he : l.isEmpty
  · rw [if_pos he] at h
    simp at h
  · rw [if_neg he] at h
    have h1 := trimLoop_subset _ _ h
    obtain ⟨p, _, hp⟩ := List.mem_map.mp h1
    rw [← hp]
    exact trim_msg_content_le p

lemma trim_messages_ne_nil (l : List PMsg) (h : l ≠ []) : trim_messages l ≠ [] := by
  unfold trim_messages
  have he : l.isEmpty = false := by
    cases l with
    | nil => exact absurd rfl h
    | cons a as => rfl
  rw [he]
  simp only [Bool.false_eq_true, if_false]
  apply trimLoop_ne_nil
  have hM : MAX_MESSAGES = 24 := rfl
  have hl : 0 < l.length := List.length_pos.mpr h
  have : 0 < ((l.drop (l.length - MAX_MESSAGES)).map trim_msg).length := by
    rw [List.length_map, List.length_drop]
    omega
  exact List.ne_nil_of_length_pos this

lemma trim_messages_total_or_one (l : List PMsg) :
    totalChars (trim_messages l) ≤ MAX_TOTAL_CHARS ∨ (trim_messages l).length = 1 := by
  unfold trim_messages
  by_cases h : l.isEmpty
  · rw [if_pos h]
    left
    simp [totalChars]
  · rw [if_neg h]
    exact trimLoop_total_or_one _

lemma trim_msg_toP (m : CMsg) (h : m.content.length ≤ MAX_MESSAGE_CHARS) :
    trim_msg (CMsg.toP m) = m := by
  unfold trim_msg CMsg.toP
  simp only [Option.getD_some]
  have : ¬ m.content.length > MAX_MESSAGE_CHARS := by omega
  rw [if_neg this]

lemma trim_idem (l : List PMsg) :
    trim_messages ((trim_messages l).map CMsg.toP) = trim_messages l := by
  by_cases h : l.isEmpty
  · have h0 : trim_messages l = [] := by
      unfold trim_messages
      rw [if_pos h]
    rw [h0]
    rfl
  · have hlne : l ≠ [] := by
      cases l with
      | nil => simp at h
      | cons a as => exact List.cons_ne_nil a as
    have hne : trim_messages l ≠ [] := trim_messages_ne_nil l hlne
    have hmapne : ((trim_messages l).map CMsg.toP).isEmpty = false := by
      cases ho : trim_messages l with
      | nil => exact absurd ho hne
      | cons a as => rfl
    conv_lhs => rw [trim_messages]
    rw [hmapne]
    simp only [Bool.false_eq_true, if_false]
    have h24 : (trim_messages l).length ≤ MAX_MESSAGES := trim_messages_length_le l
    have hz : ((trim_messages l).map CMsg.toP).length - MAX_MESSAGES = 0 := by
      rw [List.length_map]
      omega
    rw [hz, List.drop_zero, List.map_map]
    have hmap : (trim_messages l).map (trim_msg ∘ CMsg.toP) = trim_messages l := by
      apply map_id_of_mem
      intro x hx
      exact trim_msg_toP x (trim_messages_content_le l x hx)
    rw [hmap]
    apply trimLoop_fix
    rcases trim_messages_total_or_one l with h1 | h1
    · exact Or.inl h1
    · exact Or.inr (le_of_eq h1)

/-- C1: for every input list of messages, `trim_messages` returns a list of
length at most `MAX_MESSAGES` (24), in which every message content has
length at most `MAX_MESSAGE_CHARS` (3000), whose total content length is
at most `MAX_TOTAL_CHARS` (14000) unless the output has exactly one
message, and which is non-empty whenever the input is non-empty. -/
theorem C1_trim_messages_bounds (messages : List PMsg) :
    (trim_messages messages).length ≤ MAX_MESSAGES ∧
    (∀ m ∈ trim_messages messages, m.content.length ≤ MAX_MESSAGE_CHARS) ∧
    (totalChars (trim_messages messages) ≤ MAX_TOTAL_CHARS ∨
      (trim_messages messages).length = 1) ∧
    (messages ≠ [] → trim_messages messages ≠ []) :=
  ⟨trim_messages_length_le messages,
   fun m hm => trim_messages_content_le messages m hm,
   trim_messages_total_or_one messages,
   fun h => trim_messages_ne_nil messages h⟩

/-- Witness for C1 at a concrete one-message input. -/
theorem C1_trim_messages_bounds_witness :
    ([PMsg.mk (some "user") (some "hello")] : List PMsg) ≠ [] ∧
    trim_messages [PMsg.mk (some "user") (some "hello")] ≠ [] ∧
    CMsg.mk "user" "hello" ∈ trim_messages [PMsg.mk (some "user") (some "hello")] ∧
    (CMsg.mk "user" "hello").content.length ≤ MAX_MESSAGE_CHARS := by
  refine ⟨by simp, (C1_trim_messages_bounds _).2.2.2 (by simp), ?_, ?_⟩
  · show CMsg.mk "user" "hello" ∈ [CMsg.mk "user" "hello"]
    exact List.mem_singleton.mpr rfl
  · exact (C1_trim_messages_bounds [PMsg.mk (some "user") (some "hello")]).2.1
      (CMsg.mk "user" "hello")
      (show CMsg.mk "user" "hello" ∈ [CMsg.mk "user" "hello"] from List.mem_singleton.mpr rfl)

/-- C7: `trim_messages` is idempotent — trimming an already-trimmed list
(with the same constants) yields an identical list. -/
theorem C7_trim_messages_idem (l : List PMsg) :
    trim_messages ((trim_messages l).map CMsg.toP) = trim_messages l :=
  trim_idem l

/-- C6: the normalizer applies its shape heuristics in the fixed priority
order — `choices[0].message.content`, then a string `choices[0].text`, then
`choices[0].delta.content`; then the first top-level string field among
`text`, `result`, `output_text`, `response`; then `data[0]`'s string field
`text` or `content` — and in particular maps the spec's five example
inputs to `"hi"`, `"hey"`, `"direct"`, `"d"` and the stringification of
the empty dict. -/
theorem C6_normalizer_priority :
    extract_text_from_model_response
      (.obj [("choices", .arr [.obj [("message", .obj [("content", .str "hi")])]])])
      = .str "hi" ∧
    extract_text_from_model_response
      (.obj [("choices", .arr [.obj [("text", .str "hey")]])]) = .str "hey" ∧
    extract_text_from_model_response (.obj [("text", .str "direct")]) = .str "direct" ∧
    extract_text_from_model_response
      (.obj [("data", .arr [.obj [("content", .str "d")]])]) = .str "d" ∧
    extract_text_from_model_response (.obj []) = .str "\x7b\x7d" ∧
    (∀ v : Json, ∀ t : String, extract_text_from_model_response
      (.obj [("choices", .arr [.obj [("message", .obj [("content", v)]), ("text", .str t)]])])
      = v) ∧
    (∀ t c : String, extract_text_from_model_response
      (.obj [("choices", .arr [.obj [("text", .str t), ("delta", .obj [("content", .str c)])]])])
      = .str t) ∧
    (∀ c : Json, extract_text_from_model_response
      (.obj [("choices", .arr [.obj [("delta", .obj [("content", c)])]])]) = c) ∧
    (∀ a b : String, extract_text_from_model_response
      (.obj [("choices", .arr [.obj [("text", .str a)]]), ("text", .str b)]) = .str a) ∧
    (∀ s t : String, extract_text_from_model_response
      (.obj [("result", .str t), ("text", .str s)]) = .str s) ∧
    (∀ t c : String, extract_text_from_model_response
      (.obj [("data", .arr [.obj [("content", .str c), ("text", .str t)]])]) = .str t) :=
  ⟨rfl, rfl, rfl, rfl, rfl,
   fun _ _ => rfl, fun _ _ => rfl, fun _ => rfl, fun _ _ => rfl,
   fun _ _ => rfl, fun _ _ => rfl⟩

/-- C5 counterexample: on `{"choices":[{"message":{"content":5}}]}` the
normalizer returns the number 5 itself, not a text value — refuting the
claim that it returns a text value for every structured JSON input. -/
theorem C5_normalizer_counterexample :
    extract_text_from_model_response
      (.obj [("choices", .arr [.obj [("message", .obj [("content", .num 5)])]])])
      = .num 5 ∧
    Json.isStr (extract_text_from_model_response
      (.obj [("choices", .arr [.obj [("message", .obj [("content", .num 5)])]])]))
      = false :=
  ⟨rfl, rfl⟩

/-- C5 (amended): the normalizer is total and never raises; an exception
during structural inspection is swallowed and falls directly to the final
fallback — the string serialization of the whole input — skipping any
remaining steps (so `{"choices":[7],"text":"direct"}` serializes instead
of yielding `"direct"`); a total non-match likewise serializes, as does
every non-dict input; a matched shape's value is returned as-is, which is
a string except for a matched `message.content` or `delta.content`. -/
theorem C5_normalizer_total_fallback :
    (∀ j : Json, extractCore j = .error () →
      extract_text_from_model_response j = .str (pyStr j)) ∧
    (∀ j : Json, extractCore j = .ok none →
      extract_text_from_model_response j = .str (pyStr j)) ∧
    (∀ j v : Json, extractCore j = .ok (some v) →
      extract_text_from_model_response j = v) ∧
    (∀ j : Json, Json.isObj j = false →
      extract_text_from_model_response j = .str (pyStr j)) ∧
    (extract_text_from_model_response (.obj [("choices", .arr [.num 7]), ("text", .str "direct")])
      = .str (pyStr (.obj [("choices", .arr [.num 7]), ("text", .str "direct")])) ∧
     extract_text_from_model_response (.obj [("choices", .arr [.num 7]), ("text", .str "direct")])
      ≠ .str "direct") := by
  refine ⟨?_, ?_, ?_, ?_, rfl, ?_⟩
  · intro j h
    unfold extract_text_from_model_response
    rw [h]
  · intro j h
    unfold extract_text_from_model_response
    rw [h]
  · intro j v h
    unfold extract_text_from_model_response
    rw [h]
  · intro j h
    have hcore : extractCore j = .ok none := by
      cases j with
      | obj kvs => simp [Json.isObj] at h
      | null => rfl
      | bool b => rfl
      | num n => rfl
      | str s => rfl
      | arr xs => rfl
    unfold extract_text_from_model_response
    rw [hcore]
  · intro h
    have h2 := Json.str.inj h
    have : pyStr (.obj [("choices", .arr [.num 7]), ("text", .str "direct")])
        = "\x7b\x27choices\x27: [7], \x27text\x27: \x27direct\x27\x7d" := rfl
    rw [this] at h2
    exact absurd h2 (by decide)

/-- Witness for C5 (amended) at concrete inputs exercising the exception
and the non-dict hypotheses. -/
theorem C5_normalizer_total_fallback_witness :
    extract_text_from_model_response (.obj [("data", .arr [.num 1])])
      = .str (pyStr (.obj [("data", .arr [.num 1])])) ∧
    extract_text_from_model_response Json.null = .str (pyStr Json.null) ∧
    extract_text_from_model_response (.obj [("text", .str "direct")]) = .str "direct" :=
  ⟨C5_normalizer_total_fallback.1 (.obj [("data", .arr [.num 1])]) rfl,
   C5_normalizer_total_fallback.2.2.2.1 Json.null rfl,
   C5_normalizer_total_fallback.2.2.1 (.obj [("text", .str "direct")]) (.str "direct") rfl⟩

/-- C10: the `stop` parameter of `call_model` has no effect — two calls
differing only in `stop` produce the same payloads, events and result. -/
theorem C10_stop_unused (prompt : String) (mt : Nat) (temp : Rat)
    (msgs : Option (List PMsg)) (net : Nat → NetResult)
    (s1 s2 : Option (List String)) :
    call_model prompt mt s1 temp msgs net = call_model prompt mt s2 temp msgs net :=
  rfl

/-- C2: a 200 response to a chat-shape POST ends the run at once with the
normalized success value — within any attempt state of any URL, and, for
a whole `call_model` run whose first response is a 200, with a single
contacted URL. -/
theorem C2_success_200 :
    (∀ (url : String) (p pi2 : Payload) (attempt rest : Nat) (le : Option String)
       (n : Nat) (net : Nat → NetResult) (r : HResp),
       net n = .resp r → r.status = 200 →
       tryUrl url p pi2 attempt (Nat.succ rest) le n net
         = (some (parse200 r), [Event.post url p], n + 1, le)) ∧
    (∀ (prompt : String) (mt : Nat) (stop : Option (List String)) (temp : Rat)
       (msgs : Option (List PMsg)) (net : Nat → NetResult) (r : HResp),
       net 0 = .resp r → r.status = 200 →
       (call_model prompt mt stop temp msgs net).ok = true ∧
       (call_model prompt mt stop temp msgs net).value = parse200 r ∧
       (call_model prompt mt stop temp msgs net).events
         = [Event.post (MODEL_HOST ++ "/v1/chat/completions")
             (Payload.chat "local-model" (safe_messages_of prompt msgs) mt temp)]) := by
  have part1 : ∀ (url : String) (p pi2 : Payload) (attempt rest : Nat) (le : Option String)
      (n : Nat) (net : Nat → NetResult) (r : HResp),
      net n = .resp r → r.status = 200 →
      tryUrl url p pi2 attempt (Nat.succ rest) le n net
        = (some (parse200 r), [Event.post url p], n + 1, le) := by
    intro url p pi2 attempt rest le n net r hnet h200
    unfold tryUrl
    rw [hnet]
    simp [h200]
  refine ⟨part1, ?_⟩
  intro prompt mt stop temp msgs net r hnet h200
  have h1 : tryUrl (MODEL_HOST ++ "/v1/chat/completions")
      (Payload.chat "local-model" (safe_messages_of prompt msgs) mt temp)
      (Payload.inputsShape prompt mt temp) 0 3 none 0 net
      = (some (parse200 r), [Event.post (MODEL_HOST ++ "/v1/chat/completions")
          (Payload.chat "local-model" (safe_messages_of prompt msgs) mt temp)], 1, none) :=
    part1 _ _ _ 0 2 none 0 net r hnet h200
  have h2 : tryUrls MODEL_URLS
      (Payload.chat "local-model" (safe_messages_of prompt msgs) mt temp)
      (Payload.inputsShape prompt mt temp) none 0 net
      = (some (parse200 r), [Event.post (MODEL_HOST ++ "/v1/chat/completions")
          (Payload.chat "local-model" (safe_messages_of prompt msgs) mt temp)], 1, none) := by
    have hurls : MODEL_URLS = (MODEL_HOST ++ "/v1/chat/completions") :: [ MODEL_HOST ++ "/v1/completions", MODEL_HOST ++ "/predict", MODEL_HOST ++ "/v1/generate", MODEL_HOST ++ "/v1/complete"] := rfl
    rw [hurls]
    unfold tryUrls
    rw [h1]
  unfold call_model
  simp only [h2]
  exact ⟨trivial, trivial, trivial⟩

/-- Witness for C2 at a concrete always-200 oracle. -/
theorem C2_success_200_witness :
    (call_model "hi" 5 none 0 none netOk).ok = true ∧
    (call_model "hi" 5 none 0 none netOk).value
      = parse200 ⟨200, some (Json.obj [("text", Json.str "ok")]), "raw"⟩ ∧
    (call_model "hi" 5 none 0 none netOk).events
      = [Event.post (MODEL_HOST ++ "/v1/chat/completions")
          (Payload.chat "local-model" (safe_messages_of "hi" none) 5 0)] :=
  C2_success_200.2 "hi" 5 none 0 none netOk
    ⟨200, some (Json.obj [("text", Json.str "ok")]), "raw"⟩ rfl rfl

lemma retry_status_ne (s : Nat) (hs : s ∈ RETRY_STATUSES) : s ≠ 200 ∧ s ≠ 404 := by
  simp only [RETRY_STATUSES, List.mem_cons, List.not_mem_nil, or_false] at hs
  rcases hs with rfl | rfl | rfl | rfl | rfl | rfl | rfl <;> exact ⟨by decide, by decide⟩

lemma tryUrl_retry_step (url : String) (p pi2 : Payload) (attempt rest : Nat)
    (le : Option String) (n : Nat) (net : Nat → NetResult) (r : HResp)
    (hnet : net n = .resp r) (hs : r.status ∈ RETRY_STATUSES) :
    tryUrl url p pi2 attempt (Nat.succ rest) le n net =
      ((tryUrl url p pi2 (attempt + 1) rest
          (some (url ++ " returned " ++ toString r.status ++ ": " ++ r.text)) (n + 1) net).1,
       Event.post url p :: Event.sleep (6 * (attempt + 1)) ::
         (tryUrl url p pi2 (attempt + 1) rest
           (some (url ++ " returned " ++ toString r.status ++ ": " ++ r.text)) (n + 1) net).2.1,
       (tryUrl url p pi2 (attempt + 1) rest
         (some (url ++ " returned " ++ toString r.status ++ ": " ++ r.text)) (n + 1) net).2.2) := by
  obtain ⟨h200, h404⟩ := retry_status_ne r.status hs
  rw [tryUrl.eq_2, hnet]
  simp [h200, h404, hs]

/-- C3: a URL answering with a recoverable status (408/409/429/500/502/
503/504) on all three attempts is retried exactly 3 times with sleeps of
0.6, 1.2 and 1.8 seconds after the respective failures, the last
diagnostic names the URL and status, and the run advances to the next
candidate URL. -/
theorem C3_retry_three_attempts (url : String) (p pi2 : Payload)
    (le : Option String) (n : Nat) (net : Nat → NetResult) (r0 r1 r2 : HResp)
    (h0 : net n = .resp r0) (h1 : net (n + 1) = .resp r1) (h2 : net (n + 2) = .resp r2)
    (hs0 : r0.status ∈ RETRY_STATUSES) (hs1 : r1.status ∈ RETRY_STATUSES)
    (hs2 : r2.status ∈ RETRY_STATUSES) :
    tryUrl url p pi2 0 3 le n net =
      (none,
       [Event.post url p, Event.sleep 6, Event.post url p, Event.sleep 12,
        Event.post url p, Event.sleep 18],
       n + 3,
       some (url ++ " returned " ++ toString r2.status ++ ": " ++ r2.text)) ∧
    (∀ rest : List String,
      tryUrls (url :: rest) p pi2 le n net =
        ((tryUrls rest p pi2
            (some (url ++ " returned " ++ toString r2.status ++ ": " ++ r2.text)) (n + 3) net).1,
         [Event.post url p, Event.sleep 6, Event.post url p, Event.sleep 12,
          Event.post url p, Event.sleep 18]
           ++ (tryUrls rest p pi2
             (some (url ++ " returned " ++ toString r2.status ++ ": " ++ r2.text)) (n + 3) net).2.1,
         (tryUrls rest p pi2
           (some (url ++ " returned " ++ toString r2.status ++ ": " ++ r2.text)) (n + 3) net).2.2)) := by
  have e2 : tryUrl url p pi2 2 1
      (some (url ++ " returned " ++ toString r1.status ++ ": " ++ r1.text)) (n + 2) net
      = (none, [Event.post url p, Event.sleep 18], n + 3,
         some (url ++ " returned " ++ toString r2.status ++ ": " ++ r2.text)) := by
    have h := tryUrl_retry_step url p pi2 2 0
      (some (url ++ " returned " ++ toString r1.status ++ ": " ++ r1.text)) (n + 2) net r2 h2 hs2
    have hn : n + 2 + 1 = n + 3 := by omega
    rw [h, tryUrl.eq_1, hn]
  have e1 : tryUrl url p pi2 1 2
      (some (url ++ " returned " ++ toString r0.status ++ ": " ++ r0.text)) (n + 1) net
      = (none, [Event.post url p, Event.sleep 12, Event.post url p, Event.sleep 18], n + 3,
         some (url ++ " returned " ++ toString r2.status ++ ": " ++ r2.text)) := by
    have h := tryUrl_retry_step url p pi2 1 1
      (some (url ++ " returned " ++ toString r0.status ++ ": " ++ r0.text)) (n + 1) net r1 h1 hs1
    rw [h]
    have : n + 1 + 1 = n + 2 := by omega
    rw [this, e2]
  have e0 : tryUrl url p pi2 0 3 le n net
      = (none,
         [Event.post url p, Event.sleep 6, Event.post url p, Event.sleep 12,
          Event.post url p, Event.sleep 18],
         n + 3,
         some (url ++ " returned " ++ toString r2.status ++ ": " ++ r2.text)) := by
    have h := tryUrl_retry_step url p pi2 0 2 le n net r0 h0 hs0
    rw [h, e1]
  refine ⟨e0, ?_⟩
  intro rest
  rw [tryUrls.eq_2, e0]

/-- Witness for C3 at a concrete always-503 oracle. -/
theorem C3_retry_three_attempts_witness :
    tryUrl "u" (Payload.chat "m" [] 1 0) (Payload.inputsShape "p" 1 0) 0 3 none 0 net503 =
      (none,
       [Event.post "u" (Payload.chat "m" [] 1 0), Event.sleep 6,
        Event.post "u" (Payload.chat "m" [] 1 0), Event.sleep 12,
        Event.post "u" (Payload.chat "m" [] 1 0), Event.sleep 18],
       3,
       some ("u" ++ " returned " ++ toString (503 : Nat) ++ ": " ++ "busy")) :=
  (C3_retry_three_attempts "u" (Payload.chat "m" [] 1 0) (Payload.inputsShape "p" 1 0)
    none 0 net503 ⟨503, none, "busy"⟩ ⟨503, none, "busy"⟩ ⟨503, none, "busy"⟩
    rfl rfl rfl (by decide) (by decide) (by decide)).1

lemma tryUrl_no200 (url : String) (p pi2 : Payload) (attempt t : Nat)
    (le : Option String) (n : Nat) (net : Nat → NetResult)
    (h : ∀ k, not200 (net k)) :
    (tryUrl url p pi2 attempt t le n net).1 = none := by
  induction t generalizing attempt le n with
  | zero => rfl
  | succ rest ih =>
    rcases hE : net n with r | msg
    · rw [tryUrl.eq_2, hE]
      have hr : r.status ≠ 200 := by
        have hn := h n
        rw [hE] at hn
        exact hn
      dsimp only
      split_ifs with hA hB hC
      · exact absurd hA hr
      · rfl
      · exact ih _ _ _
      · rcases hE2 : net (n + 1) with r2 | msg2
        · have hr2 : r2.status ≠ 200 := by
            have hn := h (n + 1)
            rw [hE2] at hn
            exact hn
          dsimp only
          split_ifs with hD hE3
          · exact absurd hD hr2
          · rfl
          · exact ih _ _ _
        · exact ih _ _ _
    · rw [tryUrl.eq_2, hE]
      exact ih _ _ _

lemma tryUrls_no200 (urls : List String) (p pi2 : Payload) (le : Option String)
    (n : Nat) (net : Nat → NetResult) (h : ∀ k, not200 (net k)) :
    (tryUrls urls p pi2 le n net).1 = none := by
  induction urls generalizing le n with
  | nil => rfl
  | cons url rest ih =>
    rw [tryUrls.eq_2]
    have h1 := tryUrl_no200 url p pi2 0 3 le n net h
    simp only [h1]
    exact ih _ _

/-- C4: if no request of the whole run returns status 200, `call_model`
returns the error variant (`ok = false`) whose message is the last
recorded diagnostic string behind the prefix
`"Failed to contact model. Last error: "`. -/
theorem C4_all_fail (prompt : String) (mt : Nat) (stop : Option (List String))
    (temp : Rat) (msgs : Option (List PMsg)) (net : Nat → NetResult)
    (h : ∀ k, not200 (net k)) :
    (call_model prompt mt stop temp msgs net).ok = false ∧
    (call_model prompt mt stop temp msgs net).value =
      .str ("Failed to contact model. Last error: "
        ++ strOfOptErr (call_model_last_err prompt mt temp msgs net)) := by
  have h1 := tryUrls_no200 MODEL_URLS
    (Payload.chat "local-model" (safe_messages_of prompt msgs) mt temp)
    (Payload.inputsShape prompt mt temp) none 0 net h
  unfold call_model call_model_last_err
  simp only [h1]
  exact ⟨trivial, trivial⟩

/-- Witness for C4 at a concrete oracle raising on every request. -/
theorem C4_all_fail_witness :
    (call_model "p" 1 none 0 none netExnAll).ok = false ∧
    (call_model "p" 1 none 0 none netExnAll).value =
      .str ("Failed to contact model. Last error: "
        ++ strOfOptErr (call_model_last_err "p" 1 0 none netExnAll)) :=
  C4_all_fail "p" 1 none 0 none netExnAll (fun _ => trivial)

lemma event_post_eq {u : String} {q : Payload} {url : String} {p : Payload}
    (h : Event.post u q = Event.post url p) : q = p := by
  injection h with h1 h2

lemma tryUrl_post_payloads (url : String) (p pi2 : Payload) (attempt t : Nat)
    (le : Option String) (n : Nat) (net : Nat → NetResult) (u : String) (q : Payload)
    (h : Event.post u q ∈ (tryUrl url p pi2 attempt t le n net).2.1) :
    q = p ∨ q = pi2 := by
  induction t generalizing attempt le n with
  | zero => simp [tryUrl] at h
  | succ rest ih =>
    rcases hE : net n with r | msg
    · rw [tryUrl.eq_2, hE] at h
      dsimp only at h
      by_cases hA : r.status = 200
      · rw [if_pos hA] at h
        simp only [List.mem_singleton] at h
        exact Or.inl (event_post_eq h)
      · rw [if_neg hA] at h
        by_cases hB : r.status = 404
        · rw [if_pos hB] at h
          simp only [List.mem_singleton] at h
          exact Or.inl (event_post_eq h)
        · rw [if_neg hB] at h
          by_cases hC : r.status ∈ RETRY_STATUSES
          · rw [if_pos hC] at h
            simp only [List.mem_cons] at h
            rcases h with h | h | h
            · exact Or.inl (event_post_eq h)
            · exact absurd h (by intro hh; exact Event.noConfusion hh)
            · exact ih _ _ _ h
          · rw [if_neg hC] at h
            rcases hE2 : net (n + 1) with r2 | msg2
            · rw [hE2] at h
              dsimp only at h
              by_cases hD : r2.status = 200
              · rw [if_pos hD] at h
                simp only [List.mem_cons, List.not_mem_nil, or_false] at h
                rcases h with h | h
                · exact Or.inl (event_post_eq h)
                · exact Or.inr (event_post_eq h)
              · rw [if_neg hD] at h
                by_cases hE3 : r2.status = 404
                · rw [if_pos hE3] at h
                  simp only [List.mem_cons, List.not_mem_nil, or_false] at h
                  rcases h with h | h
                  · exact Or.inl (event_post_eq h)
                  · exact Or.inr (event_post_eq h)
                · rw [if_neg hE3] at h
                  simp only [List.mem_cons] at h
                  rcases h with h | h | h
                  · exact Or.inl (event_post_eq h)
                  · exact Or.inr (event_post_eq h)
                  · exact ih _ _ _ h
            · rw [hE2] at h
              dsimp only at h
              simp only [List.mem_cons] at h
              rcases h with h | h | h | h
              · exact Or.inl (event_post_eq h)
              · exact Or.inr (event_post_eq h)
              · exact absurd h (by intro hh; exact Event.noConfusion hh)
              · exact ih _ _ _ h
    · rw [tryUrl.eq_2, hE] at h
      dsimp only at h
      simp only [List.mem_cons] at h
      rcases h with h | h | h
      · exact Or.inl (event_post_eq h)
      · exact absurd h (by intro hh; exact Event.noConfusion hh)
      · exact ih _ _ _ h

lemma tryUrls_post_payloads (urls : List String) (p pi2 : Payload)
    (le : Option String) (n : Nat) (net : Nat → NetResult) (u : String) (q : Payload)
    (h : Event.post u q ∈ (tryUrls urls p pi2 le n net).2.1) :
    q = p ∨ q = pi2 := by
  induction urls generalizing le n with
  | nil => simp [tryUrls] at h
  | cons url rest ih =>
    rw [tryUrls.eq_2] at h
    rcases h1 : (tryUrl url p pi2 0 3 le n net).1 with _ | v
    · simp only [h1] at h
      rcases List.mem_append.mp h with h | h
      · exact tryUrl_post_payloads url p pi2 0 3 le n net u q h
      · exact ih _ _ h
    · simp only [h1] at h
      exact tryUrl_post_payloads url p pi2 0 3 le n net u q h

lemma call_model_events_eq (prompt : String) (mt : Nat) (stop : Option (List String))
    (temp : Rat) (msgs : Option (List PMsg)) (net : Nat → NetResult) :
    (call_model prompt mt stop temp msgs net).events
      = (tryUrls MODEL_URLS
          (Payload.chat "local-model" (safe_messages_of prompt msgs) mt temp)
          (Payload.inputsShape prompt mt temp) none 0 net).2.1 := by
  unfold call_model
  cases h1 : (tryUrls MODEL_URLS
      (Payload.chat "local-model" (safe_messages_of prompt msgs) mt temp)
      (Payload.inputsShape prompt mt temp) none 0 net).1 with
  | none => simp only [h1]
  | some v => simp only [h1]

/-- C9: whenever a fallback completion-shape request is sent during a
`call_model` run with a non-empty messages list, its payload carries only
the raw prompt (plus `max_new_tokens` and `temperature`); structurally it
is `Payload.inputsShape prompt mt temp`, which contains no message list,
so the trimmed history is absent from it. -/
theorem C9_inputs_payload_raw_prompt (prompt : String) (mt : Nat)
    (stop : Option (List String)) (temp : Rat) (msgs : List PMsg)
    (net : Nat → NetResult) (_hmsgs : msgs ≠ [])
    (u : String) (i : String) (m : Nat) (t' : Rat)
    (hmem : Event.post u (Payload.inputsShape i m t')
      ∈ (call_model prompt mt stop temp (some msgs) net).events) :
    i = prompt ∧ m = mt ∧ t' = temp := by
  rw [call_model_events_eq] at hmem
  rcases tryUrls_post_payloads MODEL_URLS
      (Payload.chat "local-model" (safe_messages_of prompt (some msgs)) mt temp)
      (Payload.inputsShape prompt mt temp) none 0 net u
      (Payload.inputsShape i m t') hmem with hq | hq
  · exact absurd hq (by intro hh; exact Payload.noConfusion hh)
  · injection hq with h1 h2 h3
    exact ⟨h1, h2, h3⟩

/-- Witness for C9 at a concrete oracle driving the fallback path. -/
theorem C9_inputs_payload_raw_prompt_witness :
    ("hi" : String) = "hi" ∧ (7 : Nat) = 7 ∧ (0 : Rat) = 0 :=
  C9_inputs_payload_raw_prompt "hi" 7 none 0 [PMsg.mk (some "user") (some "yo")]
    netFallback (by simp)
    (MODEL_HOST ++ "/v1/chat/completions") "hi" 7 0
    (by
      have he : (call_model "hi" 7 none 0 (some [PMsg.mk (some "user") (some "yo")])
            netFallback).events
          = [Event.post (MODEL_HOST ++ "/v1/chat/completions")
               (Payload.chat "local-model" [CMsg.mk "user" "yo"] 7 0),
             Event.post (MODEL_HOST ++ "/v1/chat/completions")
               (Payload.inputsShape "hi" 7 0)] := rfl
      rw [he]
      exact List.mem_cons_of_mem _ (List.mem_singleton.mpr rfl))

lemma safe_messages_of_trimmed (prompt : String) (l : List PMsg)
    (h : trim_messages l ≠ []) :
    safe_messages_of prompt (some ((trim_messages l).map CMsg.toP)) = trim_messages l := by
  have hne : ((trim_messages l).map CMsg.toP).isEmpty = false := by
    cases ho : trim_messages l with
    | nil => exact absurd ho h
    | cons a as => rfl
  have hne2 : (trim_messages l).isEmpty = false := by
    cases ho : trim_messages l with
    | nil => exact absurd ho h
    | cons a as => rfl
  unfold safe_messages_of
  simp only [hne, Bool.false_eq_true, if_false, List.map_map]
  have hcomp : ((fun m : PMsg => CMsg.toP ⟨m.role.getD "user", m.content.getD ""⟩) ∘ CMsg.toP)
      = CMsg.toP := funext (fun _ => rfl)
  rw [hcomp, trim_idem, hne2]
  simp

/-- C8: a chat request never mutates the stored history through trimming —
after the handler runs, the session history is exactly the old history
plus the appended user message (with its full untrimmed prompt) and the
appended assistant reply, while every outbound chat payload carries the
trimmed projection of the history. -/
theorem C8_history_not_mutated (stored : List StoredMsg) (prompt : String)
    (mt : Nat) (t1 t2 : Nat) (net : Nat → NetResult) :
    (api_chat_core stored prompt mt t1 t2 net).1
      = stored ++ [StoredMsg.mk "user" prompt t1,
          StoredMsg.mk "assistant" (api_chat_core stored prompt mt t1 t2 net).2.1 t2] ∧
    (∀ m ∈ stored, m ∈ (api_chat_core stored prompt mt t1 t2 net).1) ∧
    (∀ u q, Event.post u q ∈ (api_chat_core stored prompt mt t1 t2 net).2.2 →
      q = Payload.chat "local-model"
            (trim_messages ((stored ++ [StoredMsg.mk "user" prompt t1]).map projMsg)) mt (1 / 5)
        ∨ q = Payload.inputsShape prompt mt (1 / 5)) := by
  have h1 : (api_chat_core stored prompt mt t1 t2 net).1
      = stored ++ [StoredMsg.mk "user" prompt t1,
          StoredMsg.mk "assistant" (api_chat_core stored prompt mt t1 t2 net).2.1 t2] := by
    show (stored ++ [StoredMsg.mk "user" prompt t1]) ++ [_] = _
    rw [List.append_assoc]
    rfl
  refine ⟨h1, ?_, ?_⟩
  · intro m hm
    rw [h1]
    exact List.mem_append_left _ hm
  · intro u q hq
    have hev : (api_chat_core stored prompt mt t1 t2 net).2.2
        = (call_model prompt mt none (1 / 5)
            (some ((trim_messages ((stored ++ [StoredMsg.mk "user" prompt t1]).map projMsg)).map
              CMsg.toP)) net).events := rfl
    rw [hev, call_model_events_eq] at hq
    have hne : trim_messages ((stored ++ [StoredMsg.mk "user" prompt t1]).map projMsg) ≠ [] := by
      apply trim_messages_ne_nil
      simp
    rcases tryUrls_post_payloads MODEL_URLS _ _ none 0 net u q hq with hq2 | hq2
    · rw [safe_messages_of_trimmed prompt _ hne] at hq2
      exact Or.inl hq2
    · exact Or.inr hq2

/-- Witness for C8 at an empty starting history and a 200 oracle. -/
theorem C8_history_not_mutated_witness :
    (api_chat_core [] "hi" 5 0 1 netOk).1
      = [StoredMsg.mk "user" "hi" 0,
         StoredMsg.mk "assistant" (api_chat_core [] "hi" 5 0 1 netOk).2.1 1] ∧
    (Payload.chat "local-model"
        (trim_messages (([] ++ [StoredMsg.mk "user" "hi" 0]).map projMsg)) 5 (1 / 5)
      = Payload.chat "local-model"
          (trim_messages (([] ++ [StoredMsg.mk "user" "hi" 0]).map projMsg)) 5 (1 / 5)
      ∨ Payload.chat "local-model"
          (trim_messages (([] ++ [StoredMsg.mk "user" "hi" 0]).map projMsg)) 5 (1 / 5)
        = Payload.inputsShape "hi" 5 (1 / 5)) := by
  constructor
  · have h := (C8_history_not_mutated [] "hi" 5 0 1 netOk).1
    simpa using h
  · apply (C8_history_not_mutated [] "hi" 5 0 1 netOk).2.2
    have he : (api_chat_core [] "hi" 5 0 1 netOk).2.2
        = [Event.post (MODEL_HOST ++ "/v1/chat/completions")
            (Payload.chat "local-model" [CMsg.mk "user" "hi"] 5 (1 / 5))] := rfl
    rw [he]
    exact List.mem_singleton.mpr rfl
